import Mathlib

/-!
Shallow embedding of the room-session synchronization engine of the
multichat Firebase chatroom repository.

The repository holds three near-identical variants of one React component:
`src/src/App.jsx` (no listener-cleanup registry), `src/unnamed/part_000`
(cleanup registry via pushCleanup/runCleanup) and `src/unnamed/part_001`
(cleanup closure stashed on the room reference).  The session state kept in
React hooks (`roomId`, `inRoom`, `messages`, `participants`, `localText`)
is embedded as explicit record states; the asynchronous Firebase calls are
embedded as outcome parameters (a write either succeeds or rejects) plus a
log of attempted writes; subscriptions opened by `onValue`/`onChildAdded`
are tracked in an explicit list of listeners.
-/

namespace Chatroom

/-- The value stored under a message key in the feed
(`{ fromId, fromName, text, at }`, written by `sendMessage`). -/
structure MsgVal where
  fromId : String
  fromName : String
  text : String
  atMs : Nat
deriving DecidableEq

/-- A message in the local view; `id` is the feed-assigned key (`snap.key`). -/
structure Message where
  id : String
  fromId : String
  fromName : String
  text : String
  atMs : Nat
deriving DecidableEq

/-- A child-added snapshot delivered to the `onChildAdded` handler:
`key` is `snap.key`, `val` is `snap.val()` (`none` models `null`). -/
structure MsgSnap where
  key : String
  val : Option MsgVal
deriving DecidableEq

/-- The message object built in the handler from `snap.key` and `snap.val()`. -/
def mkMsg (key : String) (v : MsgVal) : Message :=
  { id := key, fromId := v.fromId, fromName := v.fromName, text := v.text, atMs := v.atMs }

/-- The `onChildAdded` handler body (App.jsx lines 85-101):
return early on a null value, otherwise
`setMessages(prev => prev.some(m => m.id === msg.id) ? prev : [...prev, msg])`. -/
def applyChildAdded (prev : List Message) (snap : MsgSnap) : List Message :=
  match snap.val with
  | none => prev
  | some v =>
    let msg := mkMsg snap.key v
    if prev.any (fun m => m.id == msg.id) then prev
    else prev ++ [msg]

/-- Apply a sequence of child-added notifications in delivery order. -/
def applyAll (snaps : List MsgSnap) (prev : List Message) : List Message :=
  snaps.foldl applyChildAdded prev

/-- A participant record `{ id, name, joinedAt }`. -/
structure Participant where
  id : String
  name : String
  joinedAt : Nat
deriving DecidableEq

/-- The participants map (a JS object keyed by identity id),
embedded as an association list. -/
abbrev PMap := List (String × Participant)

/-- A whole-collection participants snapshot; `val` is `snap.val()`
(`none` models `null`, e.g. when the collection is empty). -/
structure PSnap where
  val : Option PMap
deriving DecidableEq

/-- The `onValue` participants handler (App.jsx lines 78-81):
`const val = snap.val() || {}; setParticipants(val);`. -/
def applyPartSnap (snap : PSnap) : PMap :=
  snap.val.getD []

/-- A feed write attempted by the component (logged, not interpreted). -/
inductive FeedWrite
  | setPresence (roomId uid : String)
  | removePresence (roomId uid : String)
  | pushMessage (roomId fromId fromName text : String) (atMs : Nat)
  | setRoom (roomId : String)
deriving DecidableEq

/-- A subscription opened during `joinRoom`: the participants `onValue`
listener, the messages `onChildAdded` listener (on the limitToLast(200)
query) and the one-shot room-existence `onValue` listener. -/
inductive Listener
  | participants (roomId : String)
  | messages (roomId : String)
  | roomOnce (roomId : String)
deriving DecidableEq

/-- An error propagated out of an awaited feed call (a rejected promise). -/
inductive FeedError
  | feedUnavailable
deriving DecidableEq

/-- Whitespace as recognised by the JavaScript `String.prototype.trim`
(restricted to the ASCII whitespace characters that can occur here). -/
def isJsWhitespace (c : Char) : Bool :=
  c = ' ' ∨ c = '\t' ∨ c = '\n' ∨ c = '\r'

/-- JavaScript `text.trim()`: strip leading and trailing whitespace. -/
def jsTrim (s : String) : String :=
  String.mk (((s.data.dropWhile isJsWhitespace).reverse.dropWhile isJsWhitespace).reverse)

/-- Session state of the `src/src/App.jsx` variant (no cleanup registry).
`writes` logs every feed write attempted, `activeSubs` the currently open
listeners. -/
structure AppState where
  roomId : String
  inRoom : Bool
  messages : List Message
  participants : PMap
  localText : String
  name : String
  userId : String
  writes : List FeedWrite
  activeSubs : List Listener
deriving DecidableEq

/-- Result of an async intent: the state after the mutations that did run,
plus the error the returned promise rejects with, if any. -/
structure JoinResult where
  state : AppState
  error : Option FeedError
deriving DecidableEq

/-- `joinRoom(id)` of `src/src/App.jsx` (lines 55-109).  `presenceOk` models
the outcome of the awaited `set(pRef, ...)` presence write.  Note that
`setRoomId(id)` and `setInRoom(true)` run before that write is awaited, so
those mutations persist even when the write rejects; the three listeners are
opened only after the write succeeds. -/
def joinRoom (s : AppState) (id : String) (presenceOk : Bool) : JoinResult :=
  if id = "" then { state := s, error := none }
  else
    let s1 := { s with roomId := id, inRoom := true }
    let s2 := { s1 with writes := s1.writes ++ [FeedWrite.setPresence id s1.userId] }
    if presenceOk then
      { state := { s2 with activeSubs := s2.activeSubs ++
          [Listener.participants id, Listener.messages id, Listener.roomOnce id] },
        error := none }
    else
      { state := s2, error := some FeedError.feedUnavailable }

/-- `leaveRoom()` of `src/src/App.jsx` (lines 112-126): guard
`if (!inRoom || !roomId) return;`, best-effort presence removal, then reset
of the local state.  No listener is unsubscribed in this variant. -/
def leaveRoom (s : AppState) : AppState :=
  if s.inRoom = false ∨ s.roomId = "" then s
  else
    let s1 := { s with writes := s.writes ++ [FeedWrite.removePresence s.roomId s.userId] }
    { s1 with inRoom := false, messages := [], participants := [], roomId := "" }

/-- `sendMessage()` of `src/src/App.jsx` (lines 129-141).  The guard
`if (!inRoom || !localText.trim()) return;` rejects synchronously with no
write; otherwise the trimmed text is pushed to the feed (`writeOk` models the
awaited `set`) and on success `setLocalText("")` runs.  The local `messages`
list is never touched. -/
def sendMessage (s : AppState) (now : Nat) (writeOk : Bool) :
    AppState × Option FeedError :=
  if s.inRoom = false ∨ jsTrim s.localText = "" then (s, none)
  else
    let s1 := { s with writes := s.writes ++
      [FeedWrite.pushMessage s.roomId s.userId s.name (jsTrim s.localText) now] }
    if writeOk then ({ s1 with localText := "" }, none)
    else (s1, some FeedError.feedUnavailable)

/-- A cleanup entry pushed by `pushCleanup` in the `part_000` variant.
`isFunction` models the `typeof fn === "function"` check; `closeFails`
models the invoked function throwing (caught by the surrounding try). -/
structure Handle where
  sub : Listener
  isFunction : Bool
  closeFails : Bool
deriving DecidableEq

/-- Session state of the `src/unnamed/part_000` variant, which keeps a
cleanup registry `cleanupRef.current` (here `cleanups`). -/
structure AppState0 where
  roomId : String
  inRoom : Bool
  messages : List Message
  participants : PMap
  userId : String
  writes : List FeedWrite
  cleanups : List Handle
  activeSubs : List Listener
deriving DecidableEq

/-- One iteration of the forEach body in `runCleanup`
(`try { if (typeof fn === "function") fn(); } catch {}`): a function whose
call does not throw closes its listener; a throwing call is swallowed and
its listener stays open; a non-function entry is skipped. -/
def runHandle (active : List Listener) (h : Handle) : List Listener :=
  if h.isFunction = true ∧ h.closeFails = false then
    active.filter (fun x => x ≠ h.sub)
  else active

/-- The forEach over all registered cleanup entries. -/
def runHandles (hs : List Handle) (active : List Listener) : List Listener :=
  hs.foldl runHandle active

/-- `runCleanup()` of `part_000` (lines 51-58): run every entry under its
own try/catch, then `cleanupRef.current = []`. -/
def runCleanup (s : AppState0) : AppState0 :=
  { s with activeSubs := runHandles s.cleanups s.activeSubs, cleanups := [] }

/-- `leaveRoom()` of `part_000` (lines 141-160): same guard and best-effort
presence removal as the plain variant, then `runCleanup()`, then reset. -/
def leaveRoom0 (s : AppState0) : AppState0 :=
  if s.inRoom = false ∨ s.roomId = "" then s
  else
    let s1 := { s with writes := s.writes ++ [FeedWrite.removePresence s.roomId s.userId] }
    let s2 := runCleanup s1
    { s2 with inRoom := false, messages := [], participants := [], roomId := "" }

/-- `joinRoom(id)` of `part_000` (lines 69-138): if already in a room,
`await leaveRoom()` first; then presence write (awaited; `presenceOk` its
outcome); on success the three listeners are opened and a cleanup function
for each is pushed (`closeFails` gives the behaviour of each pushed function when
later invoked). -/
def joinRoom0 (s : AppState0) (id : String) (presenceOk : Bool)
    (closeFails : Listener → Bool) : AppState0 × Option FeedError :=
  if id = "" then (s, none)
  else
    let s0 := if s.inRoom then leaveRoom0 s else s
    let s1 := { s0 with roomId := id, inRoom := true }
    let s2 := { s1 with writes := s1.writes ++ [FeedWrite.setPresence id s1.userId] }
    if presenceOk then
      let newSubs := [Listener.participants id, Listener.messages id, Listener.roomOnce id]
      ({ s2 with activeSubs := s2.activeSubs ++ newSubs,
                 cleanups := s2.cleanups ++
                   newSubs.map (fun l => { sub := l, isFunction := true, closeFails := closeFails l }) },
       none)
    else (s2, some FeedError.feedUnavailable)

/-- The participants-snapshot handler applied at the session level:
`setParticipants(snap.val() || {})`. -/
def applyParticipants (s : AppState) (snap : PSnap) : AppState :=
  { s with participants := applyPartSnap snap }

/-- A fresh session (all hooks at their initial values). -/
def initApp : AppState :=
  { roomId := "", inRoom := false, messages := [], participants := [],
    localText := "", name := "user-abc12", userId := "u1", writes := [], activeSubs := [] }

/-- A fresh session for the `part_000` variant. -/
def initApp0 : AppState0 :=
  { roomId := "", inRoom := false, messages := [], participants := [],
    userId := "u1", writes := [], cleanups := [], activeSubs := [] }

/-- A burst of n distinct non-null child-added notifications. -/
def burst (n : Nat) : List MsgSnap :=
  (List.range n).map (fun i =>
    { key := toString i, val := some { fromId := "u", fromName := "u", text := "m", atMs := i } })

/-- The local messages sequence is sorted by feed-assigned id ascending
(ids compared in the lexicographic string order). -/
def sortedById (l : List Message) : Prop :=
  l.Pairwise (fun a b => a.id < b.id)

/- ### Helper lemmas about the onChildAdded handler -/

lemma applyChildAdded_none (prev : List Message) (snap : MsgSnap)
    (h : snap.val = none) : applyChildAdded prev snap = prev := by
  simp [applyChildAdded, h]

lemma applyChildAdded_mem (prev : List Message) (snap : MsgSnap) (v : MsgVal)
    (h : snap.val = some v) (hm : ∃ m ∈ prev, m.id = snap.key) :
    applyChildAdded prev snap = prev := by
  obtain ⟨m, hm1, hm2⟩ := hm
  unfold applyChildAdded
  rw [h]
  simp only [mkMsg]
  rw [if_pos]
  rw [List.any_eq_true]
  exact ⟨m, hm1, by simp [hm2]⟩

lemma applyChildAdded_fresh (prev : List Message) (snap : MsgSnap) (v : MsgVal)
    (h : snap.val = some v) (hm : ∀ m ∈ prev, m.id ≠ snap.key) :
    applyChildAdded prev snap = prev ++ [mkMsg snap.key v] := by
  unfold applyChildAdded
  rw [h]
  simp only [mkMsg]
  rw [if_neg]
  intro hc
  rw [List.any_eq_true] at hc
  obtain ⟨m, hm1, hm2⟩ := hc
  exact hm m hm1 (by simpa using hm2)

lemma applyChildAdded_absorb (prev : List Message) (snap : MsgSnap) :
    applyChildAdded (applyChildAdded prev snap) snap = applyChildAdded prev snap := by
  cases hv : snap.val with
  | none => rw [applyChildAdded_none _ _ hv]
  | some v =>
    by_cases hmem : ∃ m ∈ prev, m.id = snap.key
    · rw [applyChildAdded_mem prev snap v hv hmem, applyChildAdded_mem prev snap v hv hmem]
    · push_neg at hmem
      rw [applyChildAdded_fresh prev snap v hv hmem]
      apply applyChildAdded_mem _ _ v hv
      exact ⟨mkMsg snap.key v, by simp, rfl⟩

lemma applyChildAdded_nodup (prev : List Message) (snap : MsgSnap)
    (hnd : (prev.map Message.id).Nodup) :
    ((applyChildAdded prev snap).map Message.id).Nodup := by
  cases hv : snap.val with
  | none => rw [applyChildAdded_none _ _ hv]; exact hnd
  | some v =>
    by_cases hmem : ∃ m ∈ prev, m.id = snap.key
    · rw [applyChildAdded_mem prev snap v hv hmem]; exact hnd
    · push_neg at hmem
      rw [applyChildAdded_fresh prev snap v hv hmem]
      rw [List.map_append, List.nodup_append]
      refine ⟨hnd, by simp, ?_⟩
      intro x hx
      simp only [List.map_cons, List.map_nil, List.mem_singleton, mkMsg] at *
      intro hx1
      obtain ⟨m, hm1, hm2⟩ := List.mem_map.mp hx
      subst hx1
      exact hmem m hm1 (by rw [hm2])

lemma applyAll_nodup :
    ∀ (snaps : List MsgSnap) (prev : List Message),
      (prev.map Message.id).Nodup → ((applyAll snaps prev).map Message.id).Nodup := by
  intro snaps
  induction snaps with
  | nil => intro prev h; exact h
  | cons sn rest ih =>
    intro prev h
    exact ih (applyChildAdded prev sn) (applyChildAdded_nodup prev sn h)

/- ### Theorems for the claims -/

/-- Claim C5: if a message with the same id is already present, the incoming
notification is discarded and the sequence is unchanged; delivering the same
notification twice is the same as delivering it once, and yields exactly one
entry for that id; the handler preserves the no-duplicate-ids invariant, so
the sequence built from empty never holds two entries with the same id. -/
theorem c5_dedup :
    (∀ (prev : List Message) (snap : MsgSnap) (v : MsgVal),
        snap.val = some v → (∃ m ∈ prev, m.id = snap.key) →
        applyChildAdded prev snap = prev)
  ∧ (∀ (prev : List Message) (snap : MsgSnap),
        applyChildAdded (applyChildAdded prev snap) snap = applyChildAdded prev snap)
  ∧ (∀ (prev : List Message) (snap : MsgSnap) (v : MsgVal),
        snap.val = some v → (∀ m ∈ prev, m.id ≠ snap.key) →
        ((applyChildAdded (applyChildAdded prev snap) snap).filter
            (fun m => m.id == snap.key)).length = 1)
  ∧ (∀ (prev : List Message) (snap : MsgSnap),
        (prev.map Message.id).Nodup →
        ((applyChildAdded prev snap).map Message.id).Nodup)
  ∧ (∀ snaps : List MsgSnap, ((applyAll snaps []).map Message.id).Nodup) := by
  refine ⟨fun prev snap v h hm => applyChildAdded_mem prev snap v h hm,
          fun prev snap => applyChildAdded_absorb prev snap,
          fun prev snap v h hm => ?_,
          fun prev snap hnd => applyChildAdded_nodup prev snap hnd,
          fun snaps => applyAll_nodup snaps [] (by simp)⟩
  rw [applyChildAdded_absorb, applyChildAdded_fresh prev snap v h hm]
  rw [List.filter_append, List.length_append]
  have h1 : prev.filter (fun m => m.id == snap.key) = [] := by
    rw [List.filter_eq_nil_iff]
    intro m hmem
    simpa using hm m hmem
  simp [h1, mkMsg]

/-- Claim C5 witness at concrete inputs. -/
theorem c5_dedup_witness :
    applyChildAdded
        [ { id := "k1", fromId := "a", fromName := "a", text := "x", atMs := 0 } ]
        { key := "k1", val := some { fromId := "b", fromName := "b", text := "y", atMs := 1 } }
      = [ { id := "k1", fromId := "a", fromName := "a", text := "x", atMs := 0 } ] := by
  exact c5_dedup.1 _ _ _ rfl
    ⟨{ id := "k1", fromId := "a", fromName := "a", text := "x", atMs := 0 }, by simp, rfl⟩

/-- Claim C7: every participants snapshot fully replaces the local
participants map — after applying a snapshot the local view equals exactly
the contents of that snapshot, and a participant absent from the latest snapshot
is absent from the local view even if present in an earlier one. -/
theorem c7_presence_replace :
    (∀ (s : AppState) (snap : PSnap) (m : PMap), snap.val = some m →
        (applyParticipants s snap).participants = m)
  ∧ (∀ (s : AppState) (s1 s2 : PSnap),
        (applyParticipants (applyParticipants s s1) s2).participants = applyPartSnap s2)
  ∧ (∀ (s : AppState) (s1 s2 : PSnap) (p : String),
        (∀ pr ∈ applyPartSnap s2, pr.1 ≠ p) →
        ∀ pr ∈ (applyParticipants (applyParticipants s s1) s2).participants, pr.1 ≠ p) := by
  refine ⟨fun s snap m h => ?_, fun s s1 s2 => rfl, fun s s1 s2 p h => ?_⟩
  · simp [applyParticipants, applyPartSnap, h]
  · intro pr hpr
    exact h pr hpr

/-- Claim C7 witness at concrete inputs. -/
theorem c7_presence_replace_witness :
    (applyParticipants initApp
        { val := some [("p1", { id := "p1", name := "n", joinedAt := 0 })] }).participants
      = [("p1", { id := "p1", name := "n", joinedAt := 0 })] := by
  exact c7_presence_replace.1 _ _ _ rfl

/-- Claim C8: sendMessage when not joined, or with text that trims to empty,
is a no-op that throws nothing and attempts no feed write; a successful send
pushes the trimmed text to the feed, clears the input, and never appends to
the local messages sequence. -/
theorem c8_send :
    (∀ (s : AppState) (now : Nat) (ok : Bool), s.inRoom = false →
        sendMessage s now ok = (s, none))
  ∧ (∀ (s : AppState) (now : Nat) (ok : Bool), jsTrim s.localText = "" →
        sendMessage s now ok = (s, none))
  ∧ (∀ (s : AppState) (now : Nat), s.inRoom = true → jsTrim s.localText ≠ "" →
        (sendMessage s now true).2 = none ∧
        (sendMessage s now true).1.messages = s.messages ∧
        (sendMessage s now true).1.writes =
          s.writes ++ [FeedWrite.pushMessage s.roomId s.userId s.name (jsTrim s.localText) now] ∧
        (sendMessage s now true).1.localText = "") := by
  refine ⟨fun s now ok h => ?_, fun s now ok h => ?_, fun s now h1 h2 => ?_⟩
  · simp [sendMessage, h]
  · simp [sendMessage, h]
  · have hg : ¬(s.inRoom = false ∨ jsTrim s.localText = "") := by
      intro hc
      rcases hc with hc | hc
      · rw [h1] at hc; cases hc
      · exact h2 hc
    simp [sendMessage, hg]

/-- Claim C8 witness at concrete inputs. -/
theorem c8_send_witness :
    (sendMessage initApp 5 true = (initApp, none)) ∧
    (sendMessage { initApp with localText := "  " } 5 true
      = ({ initApp with localText := "  " }, none)) ∧
    ((sendMessage { initApp with inRoom := true, roomId := "r1", localText := " hi " } 5 true).1.messages
      = ([] : List Message)) := by
  refine ⟨c8_send.1 initApp 5 true rfl, c8_send.2.1 _ 5 true (by decide), ?_⟩
  exact (c8_send.2.2 { initApp with inRoom := true, roomId := "r1", localText := " hi " } 5
    rfl (by decide)).2.1

lemma leaveRoom_inRoom_false (s : AppState) (h : ¬(s.inRoom = false ∨ s.roomId = "")) :
    (leaveRoom s).inRoom = false := by
  simp [leaveRoom, h]

lemma leaveRoom_idle (s : AppState) (h : s.inRoom = false) : leaveRoom s = s := by
  simp [leaveRoom, h]

lemma leaveRoom_idem (s : AppState) : leaveRoom (leaveRoom s) = leaveRoom s := by
  by_cases hg : s.inRoom = false ∨ s.roomId = ""
  · have h1 : leaveRoom s = s := by
      unfold leaveRoom
      exact if_pos hg
    rw [h1]
    exact h1
  · exact leaveRoom_idle _ (leaveRoom_inRoom_false s hg)

/-- Claim C9: leaveRoom when the session is idle (joined flag false) is a
no-op — no feed write, no state change, no throw — and leaveRoom is
idempotent; likewise in the registry variant. -/
theorem c9_leave_idempotent :
    (∀ s : AppState, s.inRoom = false → leaveRoom s = s)
  ∧ (∀ s : AppState, leaveRoom (leaveRoom s) = leaveRoom s)
  ∧ (∀ s : AppState0, s.inRoom = false → leaveRoom0 s = s) := by
  exact ⟨fun s h => leaveRoom_idle s h, fun s => leaveRoom_idem s,
         fun s h => by simp [leaveRoom0, h]⟩

/-- Claim C9 witness at a concrete idle state. -/
theorem c9_leave_idempotent_witness : leaveRoom initApp = initApp := by
  exact c9_leave_idempotent.1 initApp rfl

/-- Claim C10: a null participants snapshot is applied as the empty map —
the local view neither fails, keeps its previous contents, nor stores null. -/
theorem c10_null_snapshot :
    ∀ (s : AppState) (snap : PSnap), snap.val = none →
      (applyParticipants s snap).participants = [] := by
  intro s snap h
  simp [applyParticipants, applyPartSnap, h]

/-- Claim C10 witness at a concrete state with a non-empty previous view. -/
theorem c10_null_snapshot_witness :
    (applyParticipants
        { initApp with participants := [("p1", { id := "p1", name := "n", joinedAt := 0 })] }
        { val := none }).participants = [] := by
  exact c10_null_snapshot _ _ rfl

set_option maxRecDepth 8000 in
/-- Claim C1 counterexample: delivering 201 distinct non-null item-added
notifications to a fresh local sequence leaves 201 entries — the handler
never evicts from the front, so the local length exceeds the claimed
retention cap of 200. -/
theorem c1_counterexample : 200 < (applyAll (burst 201) []).length := by
  decide

/-- Claim C1 as amended: the handler appends every non-duplicate non-null
notification and never evicts, so after applying notifications with
pairwise-distinct fresh keys the local length is the previous length plus
the number of notifications, with no upper bound at 200. -/
theorem c1_no_eviction :
    ∀ (snaps : List MsgSnap) (prev : List Message),
      (∀ sn ∈ snaps, sn.val ≠ none) →
      (snaps.map MsgSnap.key).Nodup →
      (∀ sn ∈ snaps, ∀ m ∈ prev, m.id ≠ sn.key) →
      (applyAll snaps prev).length = prev.length + snaps.length := by
  intro snaps
  induction snaps with
  | nil => intro prev _ _ _; rfl
  | cons sn rest ih =>
    intro prev hv hnd hfresh
    cases hval : sn.val with
    | none => exact absurd hval (hv sn (by simp))
    | some v =>
      have hfr : ∀ m ∈ prev, m.id ≠ sn.key := fun m hm => hfresh sn (by simp) m hm
      have hstep : applyChildAdded prev sn = prev ++ [mkMsg sn.key v] :=
        applyChildAdded_fresh prev sn v hval hfr
      have hA : applyAll (sn :: rest) prev = applyAll rest (prev ++ [mkMsg sn.key v]) := by
        show applyAll rest (applyChildAdded prev sn) = _
        rw [hstep]
      rw [hA]
      rw [List.map_cons, List.nodup_cons] at hnd
      have ihl := ih (prev ++ [mkMsg sn.key v])
        (fun s hs => hv s (by simp [hs]))
        hnd.2
        (by
          intro s hs m hm
          rcases List.mem_append.mp hm with hm | hm
          · exact hfresh s (by simp [hs]) m hm
          · have hm1 : m = mkMsg sn.key v := by simpa using hm
            subst hm1
            intro hc
            apply hnd.1
            rw [mkMsg] at hc
            simp only at hc
            rw [hc]
            exact List.mem_map.mpr ⟨s, hs, rfl⟩)
      rw [ihl]
      simp only [List.length_append, List.length_cons, List.length_nil]
      omega

/-- Claim C1 witness for the amended statement at a small concrete input. -/
theorem c1_no_eviction_witness : (applyAll (burst 2) []).length = 0 + 2 := by
  exact c1_no_eviction (burst 2) [] (by decide) (by decide) (by decide)

/-- Claim C2 counterexample: with the initial join-presence write failing,
the error is surfaced, but the session does not return to an idle joined
flag — `setInRoom(true)` already ran before the write was awaited, so
`inRoom` stays `true`. -/
theorem c2_counterexample :
    (joinRoom initApp "r1" false).error = some FeedError.feedUnavailable ∧
    (joinRoom initApp "r1" false).state.inRoom = true := by
  decide

/-- Claim C2 as amended: when the initial join-presence write fails, the
error is surfaced to the caller and no subscription is opened, but the
session is left with the joined flag true and the room id set (it does not
return to Idle). -/
theorem c2_join_presence_failure :
    ∀ (s : AppState) (id : String), id ≠ "" →
      (joinRoom s id false).error = some FeedError.feedUnavailable ∧
      (joinRoom s id false).state.activeSubs = s.activeSubs ∧
      (joinRoom s id false).state.inRoom = true ∧
      (joinRoom s id false).state.roomId = id := by
  intro s id h
  simp [joinRoom, h]

/-- Claim C2 witness for the amended statement at a concrete input. -/
theorem c2_join_presence_failure_witness :
    (joinRoom initApp "r2" false).error = some FeedError.feedUnavailable ∧
    (joinRoom initApp "r2" false).state.inRoom = true := by
  have h := c2_join_presence_failure initApp "r2" (by decide)
  exact ⟨h.1, h.2.2.1⟩

/- ### Helper lemmas about the cleanup registry (part_000 variant) -/

lemma mem_runHandles (hs : List Handle) (active : List Listener) (x : Listener)
    (hx : x ∈ runHandles hs active) : x ∈ active := by
  induction hs generalizing active with
  | nil => exact hx
  | cons hd rest ih =>
    have hx1 : x ∈ runHandle active hd := ih (runHandle active hd) hx
    unfold runHandle at hx1
    by_cases hc : hd.isFunction = true ∧ hd.closeFails = false
    · rw [if_pos hc] at hx1
      exact (List.mem_filter.mp hx1).1
    · rwa [if_neg hc] at hx1

lemma runHandles_closes (hs : List Handle) (active : List Listener) (h : Handle)
    (hmem : h ∈ hs) (hf : h.isFunction = true) (hcf : h.closeFails = false) :
    h.sub ∉ runHandles hs active := by
  induction hs generalizing active with
  | nil => cases hmem
  | cons hd rest ih =>
    rcases List.mem_cons.mp hmem with heq | hmem2
    · subst heq
      intro hx
      have hx1 : h.sub ∈ runHandle active h := mem_runHandles rest (runHandle active h) h.sub hx
      unfold runHandle at hx1
      rw [if_pos ⟨hf, hcf⟩] at hx1
      have := (List.mem_filter.mp hx1).2
      simp at this
    · exact ih (runHandle active hd) hmem2


lemma runHandles_empty_of_covered (hs : List Handle) (active : List Listener)
    (hcov : ∀ x ∈ active, ∃ h ∈ hs, h.sub = x ∧ h.isFunction = true ∧ h.closeFails = false) :
    runHandles hs active = [] := by
  rw [List.eq_nil_iff_forall_not_mem]
  intro x hx
  obtain ⟨h, hh, hsub, hf, hcf⟩ := hcov x (mem_runHandles hs active x hx)
  exact runHandles_closes hs active h hh hf hcf (hsub ▸ hx)

lemma runHandles_nil : ∀ hs : List Handle, runHandles hs [] = [] := by
  intro hs
  induction hs with
  | nil => rfl
  | cons hd rest ih =>
    show runHandles rest (runHandle [] hd) = []
    have h : runHandle [] hd = [] := by
      unfold runHandle
      split <;> rfl
    rw [h]
    exact ih

lemma leaveRoom0_covered (s : AppState0) (h1 : s.inRoom = true) (h2 : s.roomId ≠ "")
    (hcov : ∀ x ∈ s.activeSubs,
        ∃ h ∈ s.cleanups, h.sub = x ∧ h.isFunction = true ∧ h.closeFails = false) :
    (leaveRoom0 s).activeSubs = [] ∧ (leaveRoom0 s).cleanups = [] := by
  have hg : ¬(s.inRoom = false ∨ s.roomId = "") := by
    intro hc
    rcases hc with hc | hc
    · rw [h1] at hc; cases hc
    · exact h2 hc
  constructor
  · simp only [leaveRoom0, runCleanup, if_neg hg]
    exact runHandles_empty_of_covered s.cleanups s.activeSubs hcov
  · simp only [leaveRoom0, runCleanup, if_neg hg]

/-- Claim C3 counterexample: in the `src/src/App.jsx` variant the
unsubscribe handles returned by `onValue`/`onChildAdded` are discarded, so
after joining room r1 and then leaving it, all three subscriptions opened by
the join are still active — they survive the leave. -/
theorem c3_counterexample :
    (leaveRoom (joinRoom initApp "r1" true).state).activeSubs =
      [Listener.participants "r1", Listener.messages "r1", Listener.roomOnce "r1"] := by
  decide

/-- Claim C3 as amended: in the `part_000` variant (pushCleanup/runCleanup),
leaveRoom runs every registered cleanup and empties the registry — when
every active subscription is covered by a registered non-throwing cleanup
function, zero active subscriptions survive the leave; running the registry
is idempotent, safe with zero registered handles and with zero active
subscriptions, and a close failure on one handle does not prevent the
closing of the rest.  In the `src/src/App.jsx` variant, leaveRoom closes no
subscriptions at all. -/
theorem c3_subscriptions_closed :
    (∀ s : AppState0, s.inRoom = true → s.roomId ≠ "" →
        (∀ x ∈ s.activeSubs,
            ∃ h ∈ s.cleanups, h.sub = x ∧ h.isFunction = true ∧ h.closeFails = false) →
        (leaveRoom0 s).activeSubs = [] ∧ (leaveRoom0 s).cleanups = [])
  ∧ (∀ s : AppState0, runCleanup (runCleanup s) = runCleanup s)
  ∧ (∀ s : AppState0, s.cleanups = [] → runCleanup s = s)
  ∧ (∀ hs : List Handle, runHandles hs [] = [])
  ∧ (∀ (hs : List Handle) (active : List Listener) (h : Handle),
        h ∈ hs → h.isFunction = true → h.closeFails = false →
        h.sub ∉ runHandles hs active) := by
  refine ⟨fun s h1 h2 hcov => leaveRoom0_covered s h1 h2 hcov,
          fun s => ?_, fun s h => ?_,
          fun hs => runHandles_nil hs,
          fun hs active h hmem hf hcf => runHandles_closes hs active h hmem hf hcf⟩
  · simp [runCleanup, runHandles]
  · cases s
    simp only at h
    subst h
    simp [runCleanup, runHandles]

/-- Claim C3 witness: join then leave in the registry variant at concrete
inputs, all cleanup functions succeeding. -/
theorem c3_subscriptions_closed_witness :
    (leaveRoom0 (joinRoom0 initApp0 "r1" true (fun _ => false)).1).activeSubs = [] ∧
    (leaveRoom0 (joinRoom0 initApp0 "r1" true (fun _ => false)).1).cleanups = [] := by
  exact c3_subscriptions_closed.1 _ rfl (by decide) (by decide)

/-- Claim C4 counterexample: in the `src/src/App.jsx` variant, `joinRoom(b)`
while room a is active performs no leave of a, so the participants
subscription of room a is still active afterwards — not zero subscriptions for the
old room. -/
theorem c4_counterexample :
    Listener.participants "a" ∈
      (joinRoom (joinRoom initApp "a" true).state "b" true).state.activeSubs := by
  decide

/-- Claim C4 as amended: in the `part_000` variant, joining room b while
another room is active (joined flag set, non-empty room id, every active
subscription covered by a registered non-throwing cleanup) first performs a
full leave, so afterwards the active subscriptions are exactly the three
subscriptions for room b.  In the `src/src/App.jsx` variant the
subscriptions of the old room survive. -/
theorem c4_single_active_room :
    ∀ (s : AppState0) (b : String), s.inRoom = true → s.roomId ≠ "" → b ≠ "" →
      (∀ x ∈ s.activeSubs,
          ∃ h ∈ s.cleanups, h.sub = x ∧ h.isFunction = true ∧ h.closeFails = false) →
      (joinRoom0 s b true (fun _ => false)).1.activeSubs =
        [Listener.participants b, Listener.messages b, Listener.roomOnce b] ∧
      (joinRoom0 s b true (fun _ => false)).1.cleanups =
        [⟨Listener.participants b, true, false⟩, ⟨Listener.messages b, true, false⟩,
         ⟨Listener.roomOnce b, true, false⟩] := by
  intro s b h1 h2 hb hcov
  have hleave := leaveRoom0_covered s h1 h2 hcov
  simp only [joinRoom0, if_neg hb, h1, if_true, List.map_cons, List.map_nil]
  constructor
  · rw [hleave.1]
    rfl
  · rw [hleave.2]
    rfl

/-- Claim C4 witness: join room a then room b from a fresh registry-variant
session, ending with exactly the subscriptions for room b. -/
theorem c4_single_active_room_witness :
    (joinRoom0 (joinRoom0 initApp0 "a" true (fun _ => false)).1 "b" true (fun _ => false)).1.activeSubs
      = [Listener.participants "b", Listener.messages "b", Listener.roomOnce "b"] := by
  exact (c4_single_active_room _ "b" rfl (by decide) (by decide) (by decide)).1

/- ### Ordering of the local messages sequence -/

lemma applyAll_sorted_aux :
    ∀ (snaps : List MsgSnap) (prev : List Message),
      sortedById prev →
      (snaps.map MsgSnap.key).Pairwise (fun a b => a < b) →
      (∀ m ∈ prev, ∀ sn ∈ snaps, m.id < sn.key) →
      sortedById (applyAll snaps prev) := by
  intro snaps
  induction snaps with
  | nil => intro prev hs _ _; exact hs
  | cons sn rest ih =>
    intro prev hs hp hb
    rw [List.map_cons, List.pairwise_cons] at hp
    cases hval : sn.val with
    | none =>
      have hstep : applyAll (sn :: rest) prev = applyAll rest prev := by
        show applyAll rest (applyChildAdded prev sn) = _
        rw [applyChildAdded_none prev sn hval]
      rw [hstep]
      exact ih prev hs hp.2 (fun m hm s hs2 => hb m hm s (by simp [hs2]))
    | some v =>
      have hfr : ∀ m ∈ prev, m.id ≠ sn.key := fun m hm =>
        ne_of_lt (hb m hm sn (by simp))
      have hstep : applyAll (sn :: rest) prev
          = applyAll rest (prev ++ [mkMsg sn.key v]) := by
        show applyAll rest (applyChildAdded prev sn) = _
        rw [applyChildAdded_fresh prev sn v hval hfr]
      rw [hstep]
      apply ih
      · rw [sortedById, List.pairwise_append]
        refine ⟨hs, by simp [sortedById], ?_⟩
        intro a ha b hb2
        have hb3 : b = mkMsg sn.key v := by simpa using hb2
        subst hb3
        exact hb a ha sn (by simp)
      · exact hp.2
      · intro m hm s hs2
        rcases List.mem_append.mp hm with hm | hm
        · exact hb m hm s (by simp [hs2])
        · have hm1 : m = mkMsg sn.key v := by simpa using hm
          subst hm1
          exact hp.1 s.key (List.mem_map.mpr ⟨s, hs2, rfl⟩)

/-- Claim C6: for any sequence of item-added notifications delivered in
strictly increasing feed-assigned-id order, the local messages sequence
(built from empty by appending at the end, never re-sorting) is sorted by
that id after each notification is applied. -/
theorem c6_sorted :
    ∀ (snaps : List MsgSnap),
      (snaps.map MsgSnap.key).Pairwise (fun a b => a < b) →
      ∀ n : Nat, sortedById (applyAll (snaps.take n) []) := by
  intro snaps hp n
  apply applyAll_sorted_aux
  · exact List.Pairwise.nil
  · rw [List.map_take]
    exact hp.sublist (List.take_sublist n _)
  · intro m hm
    cases hm

/-- Claim C6 witness: three concrete notifications with increasing keys. -/
theorem c6_sorted_witness : sortedById (applyAll ((burst 3).take 3) []) := by
  have hmap : (burst 3).map MsgSnap.key = ["0", "1", "2"] := by decide
  have hp : ((burst 3).map MsgSnap.key).Pairwise (fun a b => a < b) := by
    rw [hmap]
    refine List.Pairwise.cons ?_ (List.Pairwise.cons ?_ (List.Pairwise.cons ?_ List.Pairwise.nil))
    · intro b hb
      rw [String.lt_iff_toList_lt]
      rcases List.mem_cons.mp hb with h | hb2
      · subst h; decide
      · rcases List.mem_cons.mp hb2 with h | hb3
        · subst h; decide
        · exact absurd hb3 (List.not_mem_nil b)
    · intro b hb
      rw [String.lt_iff_toList_lt]
      rcases List.mem_cons.mp hb with h | hb2
      · subst h; decide
      · exact absurd hb2 (List.not_mem_nil b)
    · intro b hb
      exact absurd hb (List.not_mem_nil b)
  exact c6_sorted (burst 3) hp 3

end Chatroom
